import Mathlib

/-!
Shallow embedding of the Snake game engine from `src/snake.c`.

The board is a 48x48 grid of 3-bit cell states, bit-packed into 32-bit
words (`cell_pack_t`), ten cells per pack, five packs per row.  Game
state consists of the board plus the `snake_head`, `snake_tail` and
`food_loc` cells.  `move_snake` implements movement, collision and
growth; `gen_food` implements rejection-sampled food placement (the
random stream is modelled as an explicit list of samples); `init_board`
clears the board cell by cell, as the C loops do.

Machine integers: C `int` coordinates are modelled as `Int`; the packed
words are `Nat` with explicit `% 2 ^ 32` where the C code stores into a
32-bit `cell_pack_t`.
-/

/-- `#define OCC_FLAG (1 << 2)` -/
def OCC_FLAG : Nat := 1 <<< 2

/-- `#define SNAKE_LEFT 0` -/
def SNAKE_LEFT : Nat := 0

/-- `#define SNAKE_RIGHT 1` -/
def SNAKE_RIGHT : Nat := 1

/-- `#define SNAKE_UP 2` -/
def SNAKE_UP : Nat := 2

/-- `#define SNAKE_DOWN 3` -/
def SNAKE_DOWN : Nat := 3

/-- `#define BOARD_WIDTH 48` (as a C `int`, used in signed comparisons) -/
def BOARD_WIDTH : Int := 48

/-- `#define BOARD_HEIGHT 48` -/
def BOARD_HEIGHT : Int := 48

/-- `#define BITS_PER_CELL 3` -/
def BITS_PER_CELL : Nat := 3

/-- `#define CELLS_PER_PACK ((sizeof(cell_pack_t) * 8) / BITS_PER_CELL)`,
with `sizeof(unsigned int) = 4`. -/
def CELLS_PER_PACK : Nat := (4 * 8) / BITS_PER_CELL

/-- `#define PACKS_PER_ROW (BOARD_WIDTH / CELLS_PER_PACK + 1)` -/
def PACKS_PER_ROW : Nat := 48 / CELLS_PER_PACK + 1

/-- `#define CELL_MASK ~(~0 << BITS_PER_CELL)`, i.e. binary 111. -/
def CELL_MASK : Nat := 7

/-- The six values of `cell_state_t`. `CELL_EMPTY = 0`. -/
def CELL_EMPTY : Nat := 0

/-- `CELL_HAS_FOOD = 1` -/
def CELL_HAS_FOOD : Nat := 1

/-- `CELL_OCC_LEFT = OCC_FLAG | SNAKE_LEFT` -/
def CELL_OCC_LEFT : Nat := OCC_FLAG ||| SNAKE_LEFT

/-- `CELL_OCC_RIGHT = OCC_FLAG | SNAKE_RIGHT` -/
def CELL_OCC_RIGHT : Nat := OCC_FLAG ||| SNAKE_RIGHT

/-- `CELL_OCC_UP = OCC_FLAG | SNAKE_UP` -/
def CELL_OCC_UP : Nat := OCC_FLAG ||| SNAKE_UP

/-- `CELL_OCC_DOWN = OCC_FLAG | SNAKE_DOWN` -/
def CELL_OCC_DOWN : Nat := OCC_FLAG ||| SNAKE_DOWN

/-- `IS_OCCUPIED(state)  ((state) & OCC_FLAG)` read as a C truth value. -/
def IS_OCCUPIED (state : Nat) : Bool := (state &&& OCC_FLAG) != 0

/-- `cell_t`: a board location, two C `int` fields. -/
structure cell_t where
  row : Int
  column : Int
deriving DecidableEq, Repr

/-- `game_status_t` -/
inductive game_status_t where
  | GAME_CONT
  | GAME_LOSE
deriving DecidableEq, Repr

export game_status_t (GAME_CONT GAME_LOSE)

/-- The board storage `static cell_pack_t board[BOARD_HEIGHT][PACKS_PER_ROW]`,
modelled as a total function from (row, pack index) to the packed word.
Accesses outside the C array bounds are undefined behaviour in the source;
the total function is an arbitrary completion of them. -/
def Board := Int → Nat → Nat

/-- Reading a 3-bit field of a packed word:
`(pack >> offset) & CELL_MASK`. -/
def packGet (w off : Nat) : Nat := (w >>> off) &&& CELL_MASK

/-- Writing a 3-bit field of a packed word:
`(pack & ~(CELL_MASK << offset)) | (state << offset)`, where the `~` is
32-bit complement (the word is an `unsigned int`) and the store truncates
to 32 bits. -/
def packSet (w off state : Nat) : Nat :=
  (w &&& ((2 ^ 32 - 1) ^^^ (CELL_MASK <<< off))) ||| ((state <<< off) % 2 ^ 32)

/-- `get_cell`:
`(board[row][PACK_INDEX(column)] >> CELL_OFFSET(column)) & CELL_MASK`. -/
def get_cell (b : Board) (row column : Int) : Nat :=
  packGet (b row (column.toNat / CELLS_PER_PACK))
    ((column.toNat % CELLS_PER_PACK) * BITS_PER_CELL)

/-- `set_cell`: guarded by `row < BOARD_HEIGHT && column < BOARD_WIDTH`
(no lower bound check, as in the source), then a masked store into the
pack holding the cell. -/
def set_cell (b : Board) (row column : Int) (state : Nat) : Board :=
  if row < BOARD_HEIGHT ∧ column < BOARD_WIDTH then
    fun r p =>
      if r = row ∧ p = column.toNat / CELLS_PER_PACK then
        packSet (b row (column.toNat / CELLS_PER_PACK))
          ((column.toNat % CELLS_PER_PACK) * BITS_PER_CELL) state
      else b r p
  else b

/-- `cells_eq`: compare two cell locations. -/
def cells_eq (cell1 cell2 : cell_t) : Bool :=
  cell1.row == cell2.row && cell1.column == cell2.column

/-- `get_next_cell`: step a cell one unit in `direction`; returns the C
validity flag and the (possibly) updated cell.  For a non-canonical
direction the cell is unchanged and the flag is `false`. -/
def get_next_cell (cell : cell_t) (direction : Nat) : Bool × cell_t :=
  if direction = SNAKE_LEFT then (true, ⟨cell.row, cell.column - 1⟩)
  else if direction = SNAKE_RIGHT then (true, ⟨cell.row, cell.column + 1⟩)
  else if direction = SNAKE_UP then (true, ⟨cell.row - 1, cell.column⟩)
  else if direction = SNAKE_DOWN then (true, ⟨cell.row + 1, cell.column⟩)
  else (false, cell)

/-- The whole game state: the packed board plus the `static cell_t`
globals `snake_head`, `snake_tail`, `food_loc`. -/
structure GameState where
  board : Board
  snake_head : cell_t
  snake_tail : cell_t
  food_loc : cell_t

/-- `gen_food`: sample positions (`rand() % BOARD_HEIGHT`,
`rand() % BOARD_WIDTH`) from the stream until an empty cell is found, then
store `CELL_HAS_FOOD` there and record it in `food_loc`.  Exhausting the
finite sample list models non-termination of the C `do { } while` loop. -/
def gen_food : List (Nat × Nat) → GameState → Option GameState
  | [], _ => none
  | (a, b) :: rest, s =>
    let r : Int := (a % 48 : Nat)
    let c : Int := (b % 48 : Nat)
    if get_cell s.board r c = CELL_EMPTY then
      some (GameState.mk (set_cell s.board r c CELL_HAS_FOOD) s.snake_head s.snake_tail ⟨r, c⟩)
    else gen_food rest s

/-- The inner loop of `init_board`: `for (j = 0; j < n; j++) set_cell(i, j, CELL_EMPTY)`. -/
def clearCols (b : Board) (i : Int) : Nat → Board
  | 0 => b
  | j + 1 => set_cell (clearCols b i j) i (j : Int) CELL_EMPTY

/-- The outer loop of `init_board`: clear rows `0 .. n-1`. -/
def clearRows (b : Board) : Nat → Board
  | 0 => b
  | i + 1 => clearCols (clearRows b i) (i : Int) 48

/-- `init_board`: clear every cell, then put head and tail at the centre. -/
def init_board (s : GameState) : GameState :=
  GameState.mk (clearRows s.board 48)
    ⟨BOARD_HEIGHT / 2, BOARD_WIDTH / 2⟩ ⟨BOARD_HEIGHT / 2, BOARD_WIDTH / 2⟩ s.food_loc

/-- `move_snake`.  Mirrors the C control flow exactly: mark the old head
cell with the direction, step the head (an invalid direction returns
`GAME_CONT` right there), check the lose condition, then either follow
the tail (no food) or call `gen_food` (food), and finally mark the new
head cell.  `samples` feeds `gen_food`; a `none` result models the C call
never returning because `gen_food` loops forever. -/
def move_snake (samples : List (Nat × Nat)) (direction : Nat) (s : GameState) :
    Option (game_status_t × GameState) :=
  let b1 := set_cell s.board s.snake_head.row s.snake_head.column (OCC_FLAG ||| direction)
  match get_next_cell s.snake_head direction with
  | (false, _) => some (GAME_CONT, GameState.mk b1 s.snake_head s.snake_tail s.food_loc)
  | (true, newHead) =>
    if newHead.row < 0 ∨ newHead.row ≥ BOARD_HEIGHT ∨
       newHead.column < 0 ∨ newHead.column ≥ BOARD_WIDTH ∨
       (¬ cells_eq newHead s.snake_tail = true ∧
         IS_OCCUPIED (get_cell b1 newHead.row newHead.column) = true) then
      some (GAME_LOSE, GameState.mk b1 newHead s.snake_tail s.food_loc)
    else if get_cell b1 newHead.row newHead.column ≠ CELL_HAS_FOOD then
      let tail_dir := get_cell b1 s.snake_tail.row s.snake_tail.column &&& 3
      let b2 := set_cell b1 s.snake_tail.row s.snake_tail.column CELL_EMPTY
      let newTail := (get_next_cell s.snake_tail tail_dir).2
      some (GAME_CONT,
        GameState.mk (set_cell b2 newHead.row newHead.column (OCC_FLAG ||| direction))
          newHead newTail s.food_loc)
    else
      match gen_food samples (GameState.mk b1 newHead s.snake_tail s.food_loc) with
      | some s2 =>
        some (GAME_CONT,
          GameState.mk (set_cell s2.board newHead.row newHead.column (OCC_FLAG ||| direction))
            s2.snake_head s2.snake_tail s2.food_loc)
      | none => none

/-- A cell is on the board: `0 ≤ row < BOARD_HEIGHT`, `0 ≤ column < BOARD_WIDTH`. -/
def inBounds (c : cell_t) : Prop :=
  0 ≤ c.row ∧ c.row < BOARD_HEIGHT ∧ 0 ≤ c.column ∧ c.column < BOARD_WIDTH

instance (c : cell_t) : Decidable (inBounds c) := by
  unfold inBounds; infer_instance

/-! ### Bit-level lemmas for the packed storage -/

theorem packGet_lt (w off : Nat) : packGet w off < 8 := by
  have h : packGet w off ≤ 7 := Nat.and_le_right
  omega

theorem packSet_small_mod (off state : Nat) (hs : state < 8) (hoff : off ≤ 27) :
    (state <<< off) % 2 ^ 32 = state <<< off := by
  apply Nat.mod_eq_of_lt
  rw [Nat.shiftLeft_eq]
  have h1 : (2 : Nat) ^ off ≤ 2 ^ 27 := Nat.pow_le_pow_right (by norm_num) hoff
  have h2 : state * 2 ^ off ≤ 7 * 2 ^ 27 :=
    Nat.mul_le_mul (by omega) h1
  calc state * 2 ^ off ≤ 7 * 2 ^ 27 := h2
    _ < 2 ^ 32 := by norm_num

theorem packGet_packSet_same (w off state : Nat) (hs : state < 8) (hoff : off ≤ 27) :
    packGet (packSet w off state) off = state := by
  apply Nat.eq_of_testBit_eq
  intro i
  unfold packGet packSet CELL_MASK
  rw [packSet_small_mod off state hs hoff]
  rw [show (7 : Nat) = 2 ^ 3 - 1 from rfl, show (2 ^ 32 - 1 : Nat) = 2 ^ 32 - 1 from rfl]
  simp only [Nat.testBit_and, Nat.testBit_or, Nat.testBit_xor, Nat.testBit_shiftLeft,
    Nat.testBit_shiftRight, Nat.testBit_two_pow_sub_one]
  by_cases h3 : i < 3
  · have h1 : off + i - off = i := by omega
    have h2 : off ≤ off + i := by omega
    have h4 : off + i < 32 := by omega
    simp [h1, h2, h3, h4]
  · have h1 : Nat.testBit state i = false :=
      Nat.testBit_lt_two_pow (by
        have : (8 : Nat) ≤ 2 ^ i := by
          calc (8 : Nat) = 2 ^ 3 := by norm_num
          _ ≤ 2 ^ i := Nat.pow_le_pow_right (by norm_num) (by omega)
        omega)
    simp [h3, h1]

theorem packGet_packSet_ne (w off off' state : Nat) (hs : state < 8)
    (hoff : off ≤ 27) (hoff' : off' ≤ 27)
    (hfar : off + 3 ≤ off' ∨ off' + 3 ≤ off) :
    packGet (packSet w off state) off' = packGet w off' := by
  apply Nat.eq_of_testBit_eq
  intro i
  unfold packGet packSet CELL_MASK
  rw [packSet_small_mod off state hs hoff]
  rw [show (7 : Nat) = 2 ^ 3 - 1 from rfl]
  simp only [Nat.testBit_and, Nat.testBit_or, Nat.testBit_xor, Nat.testBit_shiftLeft,
    Nat.testBit_shiftRight, Nat.testBit_two_pow_sub_one]
  by_cases h3 : i < 3
  · have h4 : off' + i < 32 := by omega
    by_cases hle : off ≤ off' + i
    · have h6 : ¬ (off' + i - off < 3) := by omega
      have hstate : Nat.testBit state (off' + i - off) = false := by
        apply Nat.testBit_lt_two_pow
        have h5 : 3 ≤ off' + i - off := by omega
        have h8 : (8 : Nat) ≤ 2 ^ (off' + i - off) :=
          calc (8 : Nat) = 2 ^ 3 := by norm_num
          _ ≤ 2 ^ (off' + i - off) := Nat.pow_le_pow_right (by norm_num) h5
        omega
      simp [h3, h4, hle, h6, hstate]
    · simp [h3, h4, hle]
  · simp [h3]

/-! ### Cell-level storage lemmas -/

theorem offset_le (c : Int) : (c.toNat % CELLS_PER_PACK) * BITS_PER_CELL ≤ 27 := by
  have h : c.toNat % CELLS_PER_PACK < CELLS_PER_PACK := Nat.mod_lt _ (by decide)
  have h10 : CELLS_PER_PACK = 10 := by decide
  unfold BITS_PER_CELL
  omega

/-- Writing a cell with `row < 48` and `column < 48` and reading it back
yields the written 3-bit state. -/
theorem get_set_same (b : Board) (r c : Int) (s : Nat)
    (hr : r < BOARD_HEIGHT) (hc : c < BOARD_WIDTH) (hs : s < 8) :
    get_cell (set_cell b r c s) r c = s := by
  unfold get_cell set_cell
  rw [if_pos ⟨hr, hc⟩]
  rw [if_pos ⟨rfl, rfl⟩]
  exact packGet_packSet_same _ _ _ hs (offset_le c)

/-- Writing a cell never changes a cell in a different row. -/
theorem get_set_row_ne (b : Board) (r c r' c' : Int) (s : Nat) (hne : r' ≠ r) :
    get_cell (set_cell b r c s) r' c' = get_cell b r' c' := by
  unfold get_cell set_cell
  split
  · beta_reduce
    rw [if_neg]
    intro h
    exact hne h.1
  · rfl

/-- Writing an in-bounds cell with a 3-bit state changes no other
in-bounds cell: the 3-bit fields of distinct cells never overlap. -/
theorem get_set_ne (b : Board) (r c r' c' : Int) (s : Nat) (hs : s < 8)
    (hc0 : 0 ≤ c) (hc : c < BOARD_WIDTH) (hc0' : 0 ≤ c') (hc' : c' < BOARD_WIDTH)
    (hne : ¬ (r = r' ∧ c = c')) :
    get_cell (set_cell b r c s) r' c' = get_cell b r' c' := by
  by_cases hrow : r' = r
  · subst hrow
    have hcc : c ≠ c' := fun h => hne ⟨rfl, h⟩
    unfold get_cell set_cell
    split
    · beta_reduce
      have h10 : CELLS_PER_PACK = 10 := by decide
      have h3 : BITS_PER_CELL = 3 := by decide
      have hW : BOARD_WIDTH = (48 : Int) := by decide
      by_cases hpack : c'.toNat / CELLS_PER_PACK = c.toNat / CELLS_PER_PACK
      · rw [if_pos ⟨rfl, hpack⟩, hpack]
        apply packGet_packSet_ne _ _ _ _ hs (offset_le c) (offset_le c')
        have hne2 : c.toNat ≠ c'.toNat := by omega
        have hm : c.toNat % CELLS_PER_PACK ≠ c'.toNat % CELLS_PER_PACK := by
          rw [h10] at hpack ⊢
          omega
        rw [h10, h3] at *
        omega
      · rw [if_neg]
        intro h
        exact hpack h.2
    · rfl
  · exact get_set_row_ne b r c r' c' s hrow

/-- `set_cell` with a non-`CELL_HAS_FOOD` 3-bit state never creates a food
cell anywhere (even when the written coordinates are arbitrary). -/
theorem no_new_food (b : Board) (r c r' c' : Int) (s : Nat) (hs : s < 8) (hs1 : s ≠ 1)
    (hfood : get_cell (set_cell b r c s) r' c' = CELL_HAS_FOOD) :
    get_cell b r' c' = CELL_HAS_FOOD := by
  by_cases hrow : r' = r
  · subst hrow
    unfold get_cell set_cell at hfood
    unfold get_cell
    split at hfood
    on_goal 1 => beta_reduce at hfood
    · by_cases hpack : c'.toNat / CELLS_PER_PACK = c.toNat / CELLS_PER_PACK
      · rw [if_pos ⟨rfl, hpack⟩] at hfood
        by_cases hoff : (c'.toNat % CELLS_PER_PACK) * BITS_PER_CELL =
            (c.toNat % CELLS_PER_PACK) * BITS_PER_CELL
        · rw [hoff, packGet_packSet_same _ _ _ hs (offset_le c)] at hfood
          exact absurd hfood hs1
        · rw [packGet_packSet_ne _ _ _ _ hs (offset_le c) (offset_le c')
            (by
              have h10 : CELLS_PER_PACK = 10 := by decide
              have h3 : BITS_PER_CELL = 3 := by decide
              rw [h10, h3] at hoff ⊢
              omega)] at hfood
          rw [hpack]
          exact hfood
      · rw [if_neg (fun h => hpack h.2)] at hfood
        exact hfood
    · exact hfood
  · rw [get_set_row_ne b r c r' c' s hrow] at hfood
    exact hfood

/-! ### Direction and cell helpers -/

theorem dir_cases (d : Nat) (hd : d < 4) : d = 0 ∨ d = 1 ∨ d = 2 ∨ d = 3 := by omega

/-- Masking an occupied state with the low two bits recovers the direction. -/
theorem occ_or_and_three (d : Nat) (hd : d < 4) : (OCC_FLAG ||| d) &&& 3 = d := by
  rcases dir_cases d hd with h | h | h | h <;> subst h <;> decide

theorem occ_or_lt_8 (d : Nat) (hd : d < 4) : OCC_FLAG ||| d < 8 := by
  rcases dir_cases d hd with h | h | h | h <;> subst h <;> decide

theorem occ_or_ne_food (d : Nat) (hd : d < 4) : OCC_FLAG ||| d ≠ CELL_HAS_FOOD := by
  rcases dir_cases d hd with h | h | h | h <;> subst h <;> decide

theorem occ_or_and_occ (d : Nat) (hd : d < 4) : (OCC_FLAG ||| d) &&& OCC_FLAG ≠ 0 := by
  rcases dir_cases d hd with h | h | h | h <;> subst h <;> decide

theorem cells_eq_iff (a b : cell_t) : cells_eq a b = true ↔ a = b := by
  cases a; cases b
  simp [cells_eq, cell_t.mk.injEq]

/-- For a canonical direction the step flag is `true` and the stepped
cell differs from the original in exactly one coordinate by one. -/
theorem get_next_cell_valid (c : cell_t) (d : Nat) (hd : d < 4) :
    (get_next_cell c d).1 = true := by
  rcases dir_cases d hd with h | h | h | h <;> subst h <;> rfl

theorem get_next_cell_ne (c : cell_t) (d : Nat) (hd : d < 4) :
    (get_next_cell c d).2 ≠ c := by
  cases c with
  | mk r col =>
    rcases dir_cases d hd with h | h | h | h <;> subst h <;>
      simp [get_next_cell, SNAKE_LEFT, SNAKE_RIGHT, SNAKE_UP, SNAKE_DOWN, cell_t.mk.injEq]

/-! ### Snake paths and length by traversal -/

/-- Count the cells from `pos` to `head` by repeatedly stepping in the
direction stored in the low two bits of each visited cell, with explicit
fuel; `none` when `head` is not reached within the fuel. -/
def followLen (b : Board) (head : cell_t) : cell_t → Nat → Option Nat
  | pos, 0 => if pos = head then some 1 else none
  | pos, fuel + 1 =>
    if pos = head then some 1
    else
      match followLen b head
          ((get_next_cell pos (get_cell b pos.row pos.column &&& 3)).2) fuel with
      | some n => some (n + 1)
      | none => none

/-- `PathTo b head pos ps`: following the stored directions from `pos`
reaches `head`, visiting exactly the cells of `ps` (`pos` first, `head`
last, stopping at the first arrival at `head`). -/
inductive PathTo (b : Board) (head : cell_t) : cell_t → List cell_t → Prop
  | last : PathTo b head head [head]
  | step (p : cell_t) (ps : List cell_t) (hne : p ≠ head)
      (h : PathTo b head ((get_next_cell p (get_cell b p.row p.column &&& 3)).2) ps) :
      PathTo b head p (p :: ps)

theorem PathTo.ne_nil {b : Board} {h t : cell_t} {ps : List cell_t}
    (hp : PathTo b h t ps) : ps ≠ [] := by
  cases hp <;> simp

theorem PathTo.head_eq {b : Board} {h t : cell_t} {ps : List cell_t}
    (hp : PathTo b h t ps) : ps.head? = some t := by
  cases hp <;> rfl

theorem PathTo.last_eq {b : Board} {h t : cell_t} {ps : List cell_t}
    (hp : PathTo b h t ps) : ps.getLast? = some h := by
  induction hp with
  | last => rfl
  | step p ps hne hrec ih =>
    rw [List.getLast?_cons, ih]
    cases hq : ps.getLast? with
    | none => rw [hq] at ih; cases ih
    | some q => rfl

theorem PathTo.head_mem {b : Board} {h t : cell_t} {ps : List cell_t}
    (hp : PathTo b h t ps) : h ∈ ps := by
  induction hp with
  | last => exact List.mem_singleton.mpr rfl
  | step p ps hne hrec ih => exact List.mem_cons_of_mem p ih

theorem PathTo.tail_mem {b : Board} {h t : cell_t} {ps : List cell_t}
    (hp : PathTo b h t ps) : t ∈ ps := by
  cases ps with
  | nil => exact absurd rfl hp.ne_nil
  | cons a as =>
    have h1 := hp.head_eq
    simp only [List.head?_cons, Option.some.injEq] at h1
    subst h1
    exact List.mem_cons_self a as

/-- A path determines the traversal count: with fuel at least
`ps.length - 1`, `followLen` returns exactly `ps.length`. -/
theorem PathTo.followLen_eq {b : Board} {h t : cell_t} {ps : List cell_t}
    (hp : PathTo b h t ps) : ∀ fuel, ps.length ≤ fuel + 1 →
    followLen b h t fuel = some ps.length := by
  induction hp with
  | last =>
    intro fuel _
    cases fuel <;> simp [followLen]
  | step p ps hne hrec ih =>
    intro fuel hfuel
    have hlen : 1 ≤ ps.length := by
      have := hrec.ne_nil
      cases ps
      · exact absurd rfl this
      · simp
    simp only [List.length_cons] at hfuel
    cases fuel with
    | zero => omega
    | succ f =>
      rw [followLen, if_neg hne, ih f (by omega)]
      simp

/-- The snake in a given state: the cells `ps` lead from the tail to the
head by stored directions, are pairwise distinct, in bounds, and all
carry the occupied flag. -/
structure IsSnake (s : GameState) (ps : List cell_t) : Prop where
  path : PathTo s.board s.snake_head s.snake_tail ps
  nodup : ps.Nodup
  bounds : ∀ p ∈ ps, inBounds p
  occ : ∀ p ∈ ps, get_cell s.board p.row p.column &&& OCC_FLAG ≠ 0

/-- At most one in-bounds cell of the board holds `CELL_HAS_FOOD`. -/
def atMostOneFood (b : Board) : Prop :=
  ∀ p q : cell_t, inBounds p → inBounds q →
    get_cell b p.row p.column = CELL_HAS_FOOD →
    get_cell b q.row q.column = CELL_HAS_FOOD → p = q

/-! ### `gen_food` and `init_board` -/

/-- A successful `gen_food` call stored `CELL_HAS_FOOD` at an in-bounds
cell that was `CELL_EMPTY` on the board it was handed, recorded that cell
in `food_loc`, and did not touch head or tail. -/
theorem gen_food_spec (l : List (Nat × Nat)) (s s2 : GameState)
    (h : gen_food l s = some s2) :
    inBounds s2.food_loc ∧
    get_cell s.board s2.food_loc.row s2.food_loc.column = CELL_EMPTY ∧
    s2.board = set_cell s.board s2.food_loc.row s2.food_loc.column CELL_HAS_FOOD ∧
    s2.snake_head = s.snake_head ∧ s2.snake_tail = s.snake_tail := by
  induction l with
  | nil => cases h
  | cons ab rest ih =>
    obtain ⟨a, b⟩ := ab
    rw [gen_food] at h
    split at h
    · rename_i hempty
      rw [Option.some.injEq] at h
      subst h
      have hin : inBounds ⟨((a % 48 : Nat) : Int), ((b % 48 : Nat) : Int)⟩ := by
        unfold inBounds
        dsimp only
        unfold BOARD_HEIGHT BOARD_WIDTH
        omega
      exact ⟨hin, hempty, rfl, rfl, rfl⟩
    · exact ih h

theorem get_clearCols (b : Board) (i : Int) (n : Nat) (hn : n ≤ 48)
    (hi0 : 0 ≤ i) (hi : i < BOARD_HEIGHT) (r c : Int)
    (hc0 : 0 ≤ c) (hc : c < BOARD_WIDTH) :
    get_cell (clearCols b i n) r c =
      if r = i ∧ c < (n : Int) then CELL_EMPTY else get_cell b r c := by
  have hi48 : i < (48 : Int) := hi
  have hc48 : c < (48 : Int) := hc
  induction n with
  | zero =>
    rw [clearCols, if_neg]
    intro hcon
    omega
  | succ j ih =>
    rw [clearCols]
    by_cases hcell : r = i ∧ c = (j : Int)
    · obtain ⟨h1, h2⟩ := hcell
      subst h1; subst h2
      rw [get_set_same _ _ _ _ hi (by show (j : Int) < (48 : Int); omega) (by decide)]
      rw [if_pos ⟨rfl, by omega⟩]
    · rw [get_set_ne _ i (j : Int) r c _ (by decide) (by omega)
        (by show (j : Int) < (48 : Int); omega) hc0 hc
        (fun hh => hcell ⟨hh.1.symm, hh.2.symm⟩)]
      rw [ih (by omega)]
      have hcases : (r = i ∧ c < (j : Int)) ↔ (r = i ∧ c < ((j + 1 : Nat) : Int)) := by
        constructor
        · intro hx
          exact ⟨hx.1, by omega⟩
        · intro hx
          refine ⟨hx.1, ?_⟩
          have hne2 : ¬ c = (j : Int) := fun hcj => hcell ⟨hx.1, hcj⟩
          omega
      by_cases hx : r = i ∧ c < (j : Int)
      · rw [if_pos hx, if_pos (hcases.mp hx)]
      · rw [if_neg hx, if_neg (fun hy => hx (hcases.mpr hy))]

theorem get_clearRows (b : Board) (n : Nat) (hn : n ≤ 48) (r c : Int)
    (hr0 : 0 ≤ r) (hc0 : 0 ≤ c) (hc : c < BOARD_WIDTH) :
    get_cell (clearRows b n) r c =
      if r < (n : Int) then CELL_EMPTY else get_cell b r c := by
  have hc48 : c < (48 : Int) := hc
  induction n with
  | zero =>
    rw [clearRows, if_neg]
    omega
  | succ i ih =>
    rw [clearRows]
    rw [get_clearCols _ (i : Int) 48 (by omega) (by omega)
      (by show (i : Int) < (48 : Int); omega) r c hc0 hc]
    rw [ih (by omega)]
    by_cases h1 : r = (i : Int)
    · rw [if_pos ⟨h1, by omega⟩, if_pos (by omega)]
    · rw [if_neg (fun hy => h1 hy.1)]
      by_cases h2 : r < (i : Int)
      · rw [if_pos h2, if_pos (by omega)]
      · rw [if_neg h2, if_neg (by omega)]

/-- After `init_board`, every in-bounds cell is `CELL_EMPTY`. -/
theorem init_board_clears (s : GameState) (r c : Int)
    (hr0 : 0 ≤ r) (hr : r < BOARD_HEIGHT) (hc0 : 0 ≤ c) (hc : c < BOARD_WIDTH) :
    get_cell (init_board s).board r c = CELL_EMPTY := by
  have hr48 : r < (48 : Int) := hr
  show get_cell (clearRows s.board 48) r c = CELL_EMPTY
  rw [get_clearRows s.board 48 (by omega) r c hr0 hc0 hc]
  rw [if_pos (by omega)]

attribute [irreducible] clearRows clearCols

/-- Game states reachable by the per-round calling pattern of
`game_loop`: `init_board(); gen_food();` then a sequence of `move_snake`
calls with canonical directions. -/
inductive Reach : GameState → Prop
  | start (s0 : GameState) (l : List (Nat × Nat)) (s : GameState)
      (h : gen_food l (init_board s0) = some s) : Reach s
  | move (s : GameState) (l : List (Nat × Nat)) (d : Nat) (st : game_status_t)
      (s' : GameState) (hs : Reach s) (hd : d < 4)
      (h : move_snake l d s = some (st, s')) : Reach s'

/-! ### Unfolding `move_snake` for canonical directions -/

theorem cell_eq_of_coords {a c : cell_t} (h1 : a.row = c.row) (h2 : a.column = c.column) :
    a = c := by
  cases a; cases c
  cases h1; cases h2
  rfl

theorem cell_ne_coords {a c : cell_t} (h : a ≠ c) :
    ¬ (a.row = c.row ∧ a.column = c.column) := by
  intro hc
  exact h (cell_eq_of_coords hc.1 hc.2)

/-- For a canonical direction, `move_snake` reduces to the explicit
lose / tail-follow / food three-way branch on the stepped head. -/
theorem move_snake_eq (l : List (Nat × Nat)) (d : Nat) (s : GameState) (hd : d < 4) :
    move_snake l d s =
      (if (get_next_cell s.snake_head d).2.row < 0 ∨
          (get_next_cell s.snake_head d).2.row ≥ BOARD_HEIGHT ∨
          (get_next_cell s.snake_head d).2.column < 0 ∨
          (get_next_cell s.snake_head d).2.column ≥ BOARD_WIDTH ∨
          (¬ cells_eq (get_next_cell s.snake_head d).2 s.snake_tail = true ∧
            IS_OCCUPIED (get_cell
              (set_cell s.board s.snake_head.row s.snake_head.column (OCC_FLAG ||| d))
              (get_next_cell s.snake_head d).2.row
              (get_next_cell s.snake_head d).2.column) = true) then
        some (GAME_LOSE,
          GameState.mk (set_cell s.board s.snake_head.row s.snake_head.column (OCC_FLAG ||| d))
            (get_next_cell s.snake_head d).2 s.snake_tail s.food_loc)
      else if get_cell (set_cell s.board s.snake_head.row s.snake_head.column (OCC_FLAG ||| d))
          (get_next_cell s.snake_head d).2.row
          (get_next_cell s.snake_head d).2.column ≠ CELL_HAS_FOOD then
        some (GAME_CONT,
          GameState.mk
            (set_cell
              (set_cell
                (set_cell s.board s.snake_head.row s.snake_head.column (OCC_FLAG ||| d))
                s.snake_tail.row s.snake_tail.column CELL_EMPTY)
              (get_next_cell s.snake_head d).2.row
              (get_next_cell s.snake_head d).2.column (OCC_FLAG ||| d))
            (get_next_cell s.snake_head d).2
            (get_next_cell s.snake_tail
              (get_cell
                (set_cell s.board s.snake_head.row s.snake_head.column (OCC_FLAG ||| d))
                s.snake_tail.row s.snake_tail.column &&& 3)).2
            s.food_loc)
      else
        match gen_food l (GameState.mk
            (set_cell s.board s.snake_head.row s.snake_head.column (OCC_FLAG ||| d))
            (get_next_cell s.snake_head d).2 s.snake_tail s.food_loc) with
        | some s2 =>
          some (GAME_CONT,
            GameState.mk
              (set_cell s2.board (get_next_cell s.snake_head d).2.row
                (get_next_cell s.snake_head d).2.column (OCC_FLAG ||| d))
              s2.snake_head s2.snake_tail s2.food_loc)
        | none => none) := by
  rcases dir_cases d hd with h | h | h | h <;> subst h <;> rfl

/-- C1: with a canonical direction and an in-bounds head, `move_snake`
returns `GAME_LOSE` exactly when the stepped head is out of bounds, or
differs from the tail and lands on an occupied cell of the pre-call
board; in particular stepping onto the tail cell never loses.  The first
conjunct settles the status of any returned result; the second shows the
lose result is actually returned whenever the condition holds. -/
theorem move_snake_lose_iff (l : List (Nat × Nat)) (d : Nat) (s : GameState)
    (hd : d < 4) (hin : inBounds s.snake_head) :
    (∀ st s', move_snake l d s = some (st, s') →
      (st = GAME_LOSE ↔
        ((get_next_cell s.snake_head d).2.row < 0 ∨
         (get_next_cell s.snake_head d).2.row ≥ BOARD_HEIGHT ∨
         (get_next_cell s.snake_head d).2.column < 0 ∨
         (get_next_cell s.snake_head d).2.column ≥ BOARD_WIDTH ∨
         ((get_next_cell s.snake_head d).2 ≠ s.snake_tail ∧
          IS_OCCUPIED (get_cell s.board (get_next_cell s.snake_head d).2.row
            (get_next_cell s.snake_head d).2.column) = true)))) ∧
    (((get_next_cell s.snake_head d).2.row < 0 ∨
      (get_next_cell s.snake_head d).2.row ≥ BOARD_HEIGHT ∨
      (get_next_cell s.snake_head d).2.column < 0 ∨
      (get_next_cell s.snake_head d).2.column ≥ BOARD_WIDTH ∨
      ((get_next_cell s.snake_head d).2 ≠ s.snake_tail ∧
       IS_OCCUPIED (get_cell s.board (get_next_cell s.snake_head d).2.row
         (get_next_cell s.snake_head d).2.column) = true)) →
      move_snake l d s = some (GAME_LOSE,
        GameState.mk (set_cell s.board s.snake_head.row s.snake_head.column (OCC_FLAG ||| d))
          (get_next_cell s.snake_head d).2 s.snake_tail s.food_loc)) := by
  have hframe : ¬ ((get_next_cell s.snake_head d).2.row < 0 ∨
      (get_next_cell s.snake_head d).2.row ≥ BOARD_HEIGHT ∨
      (get_next_cell s.snake_head d).2.column < 0 ∨
      (get_next_cell s.snake_head d).2.column ≥ BOARD_WIDTH) →
      get_cell (set_cell s.board s.snake_head.row s.snake_head.column (OCC_FLAG ||| d))
        (get_next_cell s.snake_head d).2.row (get_next_cell s.snake_head d).2.column =
      get_cell s.board (get_next_cell s.snake_head d).2.row
        (get_next_cell s.snake_head d).2.column := by
    intro hbnd
    push_neg at hbnd
    apply get_set_ne _ _ _ _ _ _ (occ_or_lt_8 d hd) hin.2.2.1 hin.2.2.2
      (by omega) (by omega)
    intro hcc
    exact get_next_cell_ne s.snake_head d hd (cell_eq_of_coords hcc.1.symm hcc.2.symm)
  have hcond : ((get_next_cell s.snake_head d).2.row < 0 ∨
      (get_next_cell s.snake_head d).2.row ≥ BOARD_HEIGHT ∨
      (get_next_cell s.snake_head d).2.column < 0 ∨
      (get_next_cell s.snake_head d).2.column ≥ BOARD_WIDTH ∨
      (¬ cells_eq (get_next_cell s.snake_head d).2 s.snake_tail = true ∧
        IS_OCCUPIED (get_cell
          (set_cell s.board s.snake_head.row s.snake_head.column (OCC_FLAG ||| d))
          (get_next_cell s.snake_head d).2.row
          (get_next_cell s.snake_head d).2.column) = true)) ↔
      ((get_next_cell s.snake_head d).2.row < 0 ∨
       (get_next_cell s.snake_head d).2.row ≥ BOARD_HEIGHT ∨
       (get_next_cell s.snake_head d).2.column < 0 ∨
       (get_next_cell s.snake_head d).2.column ≥ BOARD_WIDTH ∨
       ((get_next_cell s.snake_head d).2 ≠ s.snake_tail ∧
        IS_OCCUPIED (get_cell s.board (get_next_cell s.snake_head d).2.row
          (get_next_cell s.snake_head d).2.column) = true)) := by
    by_cases hbnd : ((get_next_cell s.snake_head d).2.row < 0 ∨
        (get_next_cell s.snake_head d).2.row ≥ BOARD_HEIGHT ∨
        (get_next_cell s.snake_head d).2.column < 0 ∨
        (get_next_cell s.snake_head d).2.column ≥ BOARD_WIDTH)
    · constructor <;> intro _ <;> [skip; skip] <;> tauto
    · rw [hframe hbnd]
      constructor
      · intro h
        rcases h with h | h | h | h | h
        · exact Or.inl h
        · exact Or.inr (Or.inl h)
        · exact Or.inr (Or.inr (Or.inl h))
        · exact Or.inr (Or.inr (Or.inr (Or.inl h)))
        · refine Or.inr (Or.inr (Or.inr (Or.inr ⟨?_, h.2⟩)))
          intro he
          exact h.1 ((cells_eq_iff _ _).mpr he)
      · intro h
        rcases h with h | h | h | h | h
        · exact Or.inl h
        · exact Or.inr (Or.inl h)
        · exact Or.inr (Or.inr (Or.inl h))
        · exact Or.inr (Or.inr (Or.inr (Or.inl h)))
        · refine Or.inr (Or.inr (Or.inr (Or.inr ⟨?_, h.2⟩)))
          intro he
          exact h.1 ((cells_eq_iff _ _).mp he)
  constructor
  · intro st s' hmove
    rw [move_snake_eq l d s hd] at hmove
    split at hmove
    · rename_i hc
      rw [Option.some.injEq, Prod.mk.injEq] at hmove
      constructor
      · intro _
        exact hcond.mp hc
      · intro _
        exact hmove.1.symm
    · rename_i hc
      constructor
      · intro hst
        split at hmove
        · rw [Option.some.injEq, Prod.mk.injEq] at hmove
          rw [← hmove.1] at hst
          cases hst
        · rename_i hfood
          cases hgen : gen_food l (GameState.mk
              (set_cell s.board s.snake_head.row s.snake_head.column (OCC_FLAG ||| d))
              (get_next_cell s.snake_head d).2 s.snake_tail s.food_loc) with
          | none => rw [hgen] at hmove; cases hmove
          | some s2 =>
            rw [hgen] at hmove
            rw [Option.some.injEq, Prod.mk.injEq] at hmove
            rw [← hmove.1] at hst
            cases hst
      · intro hc2
        exact absurd (hcond.mpr hc2) hc
  · intro hc2
    rw [move_snake_eq l d s hd]
    rw [if_pos (hcond.mpr hc2)]

def zeroBoard : Board := fun _ _ => 0

def c1s : GameState := ⟨zeroBoard, ⟨0, 0⟩, ⟨0, 0⟩, ⟨1, 1⟩⟩

theorem move_snake_lose_iff_witness :
    move_snake [] SNAKE_LEFT c1s = some (GAME_LOSE,
      GameState.mk
        (set_cell c1s.board c1s.snake_head.row c1s.snake_head.column (OCC_FLAG ||| SNAKE_LEFT))
        (get_next_cell c1s.snake_head SNAKE_LEFT).2 c1s.snake_tail c1s.food_loc) :=
  (move_snake_lose_iff [] SNAKE_LEFT c1s (by decide) (by decide)).2 (by decide)

/-- C2 (amended): for any non-canonical direction, `move_snake` returns
`GAME_CONT` with the head and tail positions unchanged — but the board is
not untouched: the current head cell has already been overwritten with
`OCC_FLAG | direction` before the direction is validated. -/
theorem move_snake_invalid (l : List (Nat × Nat)) (d : Nat) (s : GameState) (hd : 4 ≤ d) :
    move_snake l d s = some (GAME_CONT,
      GameState.mk (set_cell s.board s.snake_head.row s.snake_head.column (OCC_FLAG ||| d))
        s.snake_head s.snake_tail s.food_loc) := by
  unfold move_snake
  rw [show get_next_cell s.snake_head d = (false, s.snake_head) from by
    unfold get_next_cell SNAKE_LEFT SNAKE_RIGHT SNAKE_UP SNAKE_DOWN
    rw [if_neg (by omega), if_neg (by omega), if_neg (by omega), if_neg (by omega)]]

def c2s : GameState := ⟨zeroBoard, ⟨24, 24⟩, ⟨24, 24⟩, ⟨0, 0⟩⟩

def c2s' : GameState := ((move_snake [] 4 c2s).getD (GAME_CONT, c2s)).2

/-- C2 counterexample: calling `move_snake` with the non-canonical
direction 4 from a fresh center state returns `GAME_CONT` but does NOT
leave every cell of the board unchanged - the head cell is rewritten. -/
theorem move_snake_invalid_cex :
    move_snake [] 4 c2s = some (GAME_CONT, c2s') ∧
    get_cell c2s'.board 24 24 ≠ get_cell c2s.board 24 24 :=
  ⟨rfl, by decide⟩

theorem move_snake_invalid_witness :
    move_snake [] 9 c2s = some (GAME_CONT,
      GameState.mk (set_cell c2s.board c2s.snake_head.row c2s.snake_head.column (OCC_FLAG ||| 9))
        c2s.snake_head c2s.snake_tail c2s.food_loc) :=
  move_snake_invalid [] 9 c2s (by omega)

/-- C3 (amended): when a canonical-direction move returns `GAME_LOSE`,
the tail position is unchanged and the board equals the pre-call board
with exactly the old head cell overwritten to `Occupied(direction)` (the
write performed before the lose check); with an in-bounds head, every
other in-bounds cell is unchanged. -/
theorem move_snake_lose_frame (l : List (Nat × Nat)) (d : Nat) (s : GameState)
    (s' : GameState) (hd : d < 4)
    (hmove : move_snake l d s = some (GAME_LOSE, s')) :
    s'.snake_tail = s.snake_tail ∧
    s'.board = set_cell s.board s.snake_head.row s.snake_head.column (OCC_FLAG ||| d) ∧
    (inBounds s.snake_head → ∀ p : cell_t, inBounds p → p ≠ s.snake_head →
      get_cell s'.board p.row p.column = get_cell s.board p.row p.column) := by
  rw [move_snake_eq l d s hd] at hmove
  split at hmove
  · rw [Option.some.injEq, Prod.mk.injEq] at hmove
    obtain ⟨-, h2⟩ := hmove
    subst h2
    refine ⟨rfl, rfl, ?_⟩
    intro hin p hp hne
    apply get_set_ne _ _ _ _ _ _ (occ_or_lt_8 d hd) hin.2.2.1 hin.2.2.2 hp.2.2.1 hp.2.2.2
    intro hcc
    exact hne (cell_eq_of_coords hcc.1.symm hcc.2.symm)
  · split at hmove
    · rw [Option.some.injEq, Prod.mk.injEq] at hmove
      cases hmove.1
    · rename_i hfood
      cases hgen : gen_food l (GameState.mk
          (set_cell s.board s.snake_head.row s.snake_head.column (OCC_FLAG ||| d))
          (get_next_cell s.snake_head d).2 s.snake_tail s.food_loc) with
      | none => rw [hgen] at hmove; cases hmove
      | some s2 =>
        rw [hgen] at hmove
        rw [Option.some.injEq, Prod.mk.injEq] at hmove
        cases hmove.1

def c3s : GameState := ⟨set_cell zeroBoard 0 24 CELL_OCC_RIGHT, ⟨0, 24⟩, ⟨0, 24⟩, ⟨1, 1⟩⟩

def c3s' : GameState := ((move_snake [] SNAKE_UP c3s).getD (GAME_CONT, c3s)).2

/-- C3 counterexample: a losing move (head at the top edge moving up)
changes the old head cell from `CELL_OCC_RIGHT` to `CELL_OCC_UP`, so the
board is NOT left as it was before the call. -/
theorem move_snake_lose_frame_cex :
    move_snake [] SNAKE_UP c3s = some (GAME_LOSE, c3s') ∧
    get_cell c3s'.board 0 24 ≠ get_cell c3s.board 0 24 :=
  ⟨rfl, by decide⟩

theorem move_snake_lose_frame_witness :
    c3s'.snake_tail = c3s.snake_tail ∧
    c3s'.board = set_cell c3s.board c3s.snake_head.row c3s.snake_head.column
      (OCC_FLAG ||| SNAKE_UP) :=
  ⟨(move_snake_lose_frame [] SNAKE_UP c3s c3s' (by decide) rfl).1,
   (move_snake_lose_frame [] SNAKE_UP c3s c3s' (by decide) rfl).2.1⟩

/-- C6: for any in-bounds position and any of the six defined cell
states, `set_cell` followed by `get_cell` at the same position returns
exactly the written state, despite the 3-bit packed storage. -/
theorem get_set_roundtrip (b : Board) (r c : Int) (s : Nat)
    (hin : inBounds ⟨r, c⟩)
    (hs : s = CELL_EMPTY ∨ s = CELL_HAS_FOOD ∨ s = CELL_OCC_LEFT ∨
          s = CELL_OCC_RIGHT ∨ s = CELL_OCC_UP ∨ s = CELL_OCC_DOWN) :
    get_cell (set_cell b r c s) r c = s := by
  apply get_set_same b r c s hin.2.1 hin.2.2.2
  rcases hs with h | h | h | h | h | h <;> subst h <;> decide

theorem get_set_roundtrip_witness :
    get_cell (set_cell zeroBoard 7 33 CELL_OCC_DOWN) 7 33 = CELL_OCC_DOWN :=
  get_set_roundtrip zeroBoard 7 33 CELL_OCC_DOWN (by decide) (by decide)

/-- C7: a write at a position with `row ≥ BOARD_HEIGHT` or
`column ≥ BOARD_WIDTH` is silently dropped: the board function is
returned unchanged, so every cell reads back the same value. -/
theorem set_cell_out_of_range (b : Board) (r c : Int) (s : Nat)
    (h : BOARD_HEIGHT ≤ r ∨ BOARD_WIDTH ≤ c) :
    set_cell b r c s = b ∧
    ∀ r' c' : Int, get_cell (set_cell b r c s) r' c' = get_cell b r' c' := by
  have hb : set_cell b r c s = b := by
    unfold set_cell
    rw [if_neg]
    intro hcon
    rcases h with h | h
    · exact absurd hcon.1 (by omega)
    · exact absurd hcon.2 (by omega)
  exact ⟨hb, fun r' c' => by rw [hb]⟩

theorem set_cell_out_of_range_witness :
    set_cell zeroBoard 48 3 CELL_HAS_FOOD = zeroBoard :=
  (set_cell_out_of_range zeroBoard 48 3 CELL_HAS_FOOD (Or.inl (by decide))).1

/-- C9: an in-bounds `set_cell` with a 3-bit state changes only the
addressed cell — every other in-bounds cell reads back unchanged — and
the packing constants are 10 cells per 32-bit pack and 5 packs per row,
covering all 48 columns with disjoint 3-bit fields. -/
theorem set_cell_frame (b : Board) (r c r' c' : Int) (s : Nat) (hs : s < 8)
    (hin : inBounds ⟨r, c⟩) (hin' : inBounds ⟨r', c'⟩)
    (hne : ¬ (r = r' ∧ c = c')) :
    get_cell (set_cell b r c s) r' c' = get_cell b r' c' ∧
    CELLS_PER_PACK = 10 ∧ PACKS_PER_ROW = 5 := by
  refine ⟨?_, by decide, by decide⟩
  exact get_set_ne b r c r' c' s hs hin.2.2.1 hin.2.2.2 hin'.2.2.1 hin'.2.2.2 hne

theorem set_cell_frame_witness :
    get_cell (set_cell zeroBoard 1 2 CELL_OCC_UP) 1 3 = get_cell zeroBoard 1 3 :=
  (set_cell_frame zeroBoard 1 2 1 3 CELL_OCC_UP (by decide) (by decide) (by decide)
    (by intro h; exact absurd h.2 (by decide))).1

/-- C10: for each canonical direction code, masking the occupied state
`OCC_FLAG | d` with the low two bits recovers `d` exactly — also after a
round trip through the packed board — so the tail-follow step reads back
precisely the direction the head committed to the cell. -/
theorem occ_dir_roundtrip (b : Board) (r c : Int) (d : Nat) (hd : d < 4)
    (hin : inBounds ⟨r, c⟩) :
    (OCC_FLAG ||| d) &&& 3 = d ∧
    get_cell (set_cell b r c (OCC_FLAG ||| d)) r c &&& 3 = d := by
  refine ⟨occ_or_and_three d hd, ?_⟩
  rw [get_set_same b r c _ hin.2.1 hin.2.2.2 (occ_or_lt_8 d hd)]
  exact occ_or_and_three d hd

theorem occ_dir_roundtrip_witness :
    (OCC_FLAG ||| SNAKE_DOWN) &&& 3 = SNAKE_DOWN ∧
    get_cell (set_cell zeroBoard 3 7 (OCC_FLAG ||| SNAKE_DOWN)) 3 7 &&& 3 = SNAKE_DOWN :=
  occ_dir_roundtrip zeroBoard 3 7 SNAKE_DOWN (by decide) (by decide)

/-! ### C8: the single-food invariant -/

/-- C8: in every state reachable by the per-round pattern
`init_board(); gen_food();` followed by canonical-direction `move_snake`
calls, at most one in-bounds cell holds `CELL_HAS_FOOD`; and every
terminating `gen_food` call places the food on a cell that was
`CELL_EMPTY` immediately before placement. -/
theorem reach_at_most_one_food :
    (∀ s, Reach s → atMostOneFood s.board) ∧
    (∀ l s s2, gen_food l s = some s2 →
      get_cell s.board s2.food_loc.row s2.food_loc.column = CELL_EMPTY) := by
  constructor
  · intro s hs
    induction hs with
    | start s0 l s h =>
      obtain ⟨hfin, hfempty, hfboard, -, -⟩ := gen_food_spec l _ s h
      have key : ∀ p : cell_t, inBounds p →
          get_cell s.board p.row p.column = CELL_HAS_FOOD → p = s.food_loc := by
        intro p hp hfp
        by_cases hpe : p = s.food_loc
        · exact hpe
        · rw [hfboard] at hfp
          rw [get_set_ne _ _ _ _ _ _ (by decide) hfin.2.2.1 hfin.2.2.2
            hp.2.2.1 hp.2.2.2
            (cell_ne_coords (fun he => hpe he.symm))] at hfp
          rw [init_board_clears s0 p.row p.column hp.1 hp.2.1 hp.2.2.1 hp.2.2.2] at hfp
          cases hfp
      intro p q hp hq hfp hfq
      rw [key p hp hfp, key q hq hfq]
    | move s l d st s' hs hd h ih =>
      rw [move_snake_eq l d s hd] at h
      split at h
      · rw [Option.some.injEq, Prod.mk.injEq] at h
        obtain ⟨-, h2⟩ := h
        subst h2
        intro p q hp hq hfp hfq
        exact ih p q hp hq
          (no_new_food _ _ _ _ _ _ (occ_or_lt_8 d hd) (occ_or_ne_food d hd) hfp)
          (no_new_food _ _ _ _ _ _ (occ_or_lt_8 d hd) (occ_or_ne_food d hd) hfq)
      · rename_i hlose
        split at h
        · rw [Option.some.injEq, Prod.mk.injEq] at h
          obtain ⟨-, h2⟩ := h
          subst h2
          intro p q hp hq hfp hfq
          refine ih p q hp hq ?_ ?_
          · exact no_new_food _ _ _ _ _ _ (occ_or_lt_8 d hd) (occ_or_ne_food d hd)
              (no_new_food _ _ _ _ _ _ (by decide) (by decide)
                (no_new_food _ _ _ _ _ _ (occ_or_lt_8 d hd) (occ_or_ne_food d hd) hfp))
          · exact no_new_food _ _ _ _ _ _ (occ_or_lt_8 d hd) (occ_or_ne_food d hd)
              (no_new_food _ _ _ _ _ _ (by decide) (by decide)
                (no_new_food _ _ _ _ _ _ (occ_or_lt_8 d hd) (occ_or_ne_food d hd) hfq))
        · rename_i hfoodc
          rw [not_ne_iff] at hfoodc
          push_neg at hlose
          obtain ⟨hb1, hb2, hb3, hb4, -⟩ := hlose
          cases hgen : gen_food l (GameState.mk
              (set_cell s.board s.snake_head.row s.snake_head.column (OCC_FLAG ||| d))
              (get_next_cell s.snake_head d).2 s.snake_tail s.food_loc) with
          | none => rw [hgen] at h; cases h
          | some s2 =>
            rw [hgen] at h
            rw [Option.some.injEq, Prod.mk.injEq] at h
            obtain ⟨-, h2⟩ := h
            subst h2
            obtain ⟨hfin, hfempty, hfboard, -, -⟩ := gen_food_spec _ _ s2 hgen
            have hnh0 : get_cell s.board (get_next_cell s.snake_head d).2.row
                (get_next_cell s.snake_head d).2.column = CELL_HAS_FOOD :=
              no_new_food _ _ _ _ _ _ (occ_or_lt_8 d hd) (occ_or_ne_food d hd) hfoodc
            have key : ∀ p : cell_t, inBounds p →
                get_cell (set_cell s2.board (get_next_cell s.snake_head d).2.row
                  (get_next_cell s.snake_head d).2.column (OCC_FLAG ||| d))
                  p.row p.column = CELL_HAS_FOOD → p = s2.food_loc := by
              intro p hp hfp
              by_cases hpn : p = (get_next_cell s.snake_head d).2
              · subst hpn
                rw [get_set_same _ _ _ _ hb2 hb4 (occ_or_lt_8 d hd)] at hfp
                exact absurd hfp (occ_or_ne_food d hd)
              · rw [get_set_ne _ _ _ _ _ _ (occ_or_lt_8 d hd) hb3 hb4
                  hp.2.2.1 hp.2.2.2
                  (cell_ne_coords (fun he => hpn he.symm))] at hfp
                rw [hfboard] at hfp
                by_cases hpe : p = s2.food_loc
                · exact hpe
                · rw [get_set_ne _ _ _ _ _ _ (by decide) hfin.2.2.1 hfin.2.2.2
                    hp.2.2.1 hp.2.2.2
                    (cell_ne_coords (fun he => hpe he.symm))] at hfp
                  have hp0 : get_cell s.board p.row p.column = CELL_HAS_FOOD :=
                    no_new_food _ _ _ _ _ _ (occ_or_lt_8 d hd) (occ_or_ne_food d hd) hfp
                  exact absurd (ih p (get_next_cell s.snake_head d).2 hp
                    ⟨hb1, hb2, hb3, hb4⟩ hp0 hnh0) hpn
            intro p q hp hq hfp hfq
            rw [key p hp hfp, key q hq hfq]
  · intro l s s2 h
    exact (gen_food_spec l s s2 h).2.1

def s00 : GameState := ⟨zeroBoard, ⟨0, 0⟩, ⟨0, 0⟩, ⟨0, 0⟩⟩

def demoReach : GameState :=
  GameState.mk
    (set_cell (init_board s00).board ((0 % 48 : Nat) : Int) ((0 % 48 : Nat) : Int) CELL_HAS_FOOD)
    (init_board s00).snake_head (init_board s00).snake_tail
    ⟨((0 % 48 : Nat) : Int), ((0 % 48 : Nat) : Int)⟩

theorem demo_gen : gen_food [(0, 0)] (init_board s00) = some demoReach := by
  have h0 : get_cell (init_board s00).board ((0 % 48 : Nat) : Int) ((0 % 48 : Nat) : Int) =
      CELL_EMPTY :=
    init_board_clears s00 _ _ (by decide) (by decide) (by decide) (by decide)
  rw [gen_food, if_pos h0]
  rfl

def demoGen2 : GameState := (gen_food [(5, 6)] s00).getD s00

theorem reach_at_most_one_food_witness :
    atMostOneFood demoReach.board ∧
    get_cell s00.board demoGen2.food_loc.row demoGen2.food_loc.column = CELL_EMPTY :=
  ⟨reach_at_most_one_food.1 demoReach (Reach.start s00 [(0, 0)] demoReach demo_gen),
   reach_at_most_one_food.2 [(5, 6)] s00 demoGen2 rfl⟩

/-! ### Path extension for the movement theorems -/

theorem IS_OCCUPIED_false_iff (x : Nat) :
    ¬ IS_OCCUPIED x = true ↔ x &&& OCC_FLAG = 0 := by
  simp [IS_OCCUPIED]

/-- Shape inversion for a path: either the snake is the single cell
`head`, or the path steps once from the tail and continues. -/
theorem PathTo.cases_shape {b : Board} {h t : cell_t} {ps : List cell_t}
    (hp : PathTo b h t ps) :
    (t = h ∧ ps = [h]) ∨
    (t ≠ h ∧ ∃ qs, ps = t :: qs ∧
      PathTo b h ((get_next_cell t (get_cell b t.row t.column &&& 3)).2) qs) := by
  cases hp with
  | last => exact Or.inl ⟨rfl, rfl⟩
  | step p qs hne hrec => exact Or.inr ⟨hne, qs, rfl, hrec⟩

/-- Extending a path at the head: if the stored directions along `ps` are
unchanged in `b'` (except at the old head, which now stores `d`, the step
towards `h'`), the traversal in `b'` runs through `ps` and one step
further to the fresh cell `h'`. -/
theorem PathTo.extend {b b' : Board} {h h' t : cell_t} {ps : List cell_t} {d : Nat}
    (hp : PathTo b h t ps)
    (hnotin : ∀ p ∈ ps, p ≠ h')
    (hdir : ∀ p ∈ ps, p ≠ h →
      get_cell b' p.row p.column &&& 3 = get_cell b p.row p.column &&& 3)
    (hhead : get_cell b' h.row h.column &&& 3 = d)
    (hstep : (get_next_cell h d).2 = h') :
    PathTo b' h' t (ps ++ [h']) := by
  induction hp with
  | last =>
    refine PathTo.step h [h'] (hnotin h (List.mem_singleton.mpr rfl)) ?_
    rw [hhead, hstep]
    exact PathTo.last
  | step p qs hne hrec ih =>
    refine PathTo.step p (qs ++ [h']) (hnotin p (List.mem_cons_self p qs)) ?_
    rw [hdir p (List.mem_cons_self p qs) hne]
    exact ih (fun q hq => hnotin q (List.mem_cons_of_mem p hq))
      (fun q hq hqh => hdir q (List.mem_cons_of_mem p hq) hqh)

/-- C4 (amended): a non-losing canonical move onto a cell without food
follows the tail: the tail advances one step in the direction read from
the old tail cell, the new head cell becomes `Occupied(d)`, and the
traversal length from tail to head is unchanged.  The old tail cell ends
`CELL_EMPTY` — except when the stepped-to cell is the old tail itself
(the tail-exemption move), in which case that same cell is the new head
cell and ends `Occupied(d)`. -/
theorem move_snake_no_food (l : List (Nat × Nat)) (d : Nat) (s s' : GameState)
    (ps : List cell_t) (hsnake : IsSnake s ps) (hd : d < 4)
    (hmove : move_snake l d s = some (GAME_CONT, s'))
    (hnofood : get_cell s.board (get_next_cell s.snake_head d).2.row
      (get_next_cell s.snake_head d).2.column ≠ CELL_HAS_FOOD) :
    s'.snake_head = (get_next_cell s.snake_head d).2 ∧
    s'.snake_tail = (get_next_cell s.snake_tail
      (get_cell (set_cell s.board s.snake_head.row s.snake_head.column (OCC_FLAG ||| d))
        s.snake_tail.row s.snake_tail.column &&& 3)).2 ∧
    get_cell s'.board s.snake_tail.row s.snake_tail.column =
      (if (get_next_cell s.snake_head d).2 = s.snake_tail then OCC_FLAG ||| d
       else CELL_EMPTY) ∧
    get_cell s'.board s'.snake_head.row s'.snake_head.column = OCC_FLAG ||| d ∧
    IsSnake s' (ps.drop 1 ++ [(get_next_cell s.snake_head d).2]) ∧
    (ps.drop 1 ++ [(get_next_cell s.snake_head d).2]).length = ps.length ∧
    followLen s.board s.snake_head s.snake_tail ps.length = some ps.length ∧
    followLen s'.board s'.snake_head s'.snake_tail ps.length = some ps.length := by
  obtain ⟨hpath, hnodup, hbounds, hocc⟩ := hsnake
  have hheadin : inBounds s.snake_head := hbounds _ hpath.head_mem
  have htailin : inBounds s.snake_tail := hbounds _ hpath.tail_mem
  have hnhne : (get_next_cell s.snake_head d).2 ≠ s.snake_head :=
    get_next_cell_ne s.snake_head d hd
  have hv8 : OCC_FLAG ||| d < 8 := occ_or_lt_8 d hd
  rw [move_snake_eq l d s hd] at hmove
  split at hmove
  · rw [Option.some.injEq, Prod.mk.injEq] at hmove
    cases hmove.1
  rename_i hlose
  push_neg at hlose
  obtain ⟨hnr0, hnrH, hnc0, hncW, hlose5⟩ := hlose
  have hnhin : inBounds (get_next_cell s.snake_head d).2 := ⟨hnr0, hnrH, hnc0, hncW⟩
  have hb1eq : get_cell
      (set_cell s.board s.snake_head.row s.snake_head.column (OCC_FLAG ||| d))
      (get_next_cell s.snake_head d).2.row (get_next_cell s.snake_head d).2.column =
      get_cell s.board (get_next_cell s.snake_head d).2.row
        (get_next_cell s.snake_head d).2.column :=
    get_set_ne _ _ _ _ _ _ hv8 hheadin.2.2.1 hheadin.2.2.2 hnc0 hncW
      (cell_ne_coords (Ne.symm hnhne))
  rw [if_pos (by rw [hb1eq]; exact hnofood)] at hmove
  rw [Option.some.injEq, Prod.mk.injEq] at hmove
  obtain ⟨-, hs⟩ := hmove
  subst hs
  dsimp only
  have hframe1 : ∀ p : cell_t, inBounds p → p ≠ s.snake_head →
      get_cell (set_cell s.board s.snake_head.row s.snake_head.column (OCC_FLAG ||| d))
        p.row p.column = get_cell s.board p.row p.column := by
    intro p hp hpne
    exact get_set_ne _ _ _ _ _ _ hv8 hheadin.2.2.1 hheadin.2.2.2
      hp.2.2.1 hp.2.2.2 (cell_ne_coords (Ne.symm hpne))
  have hb1head : get_cell
      (set_cell s.board s.snake_head.row s.snake_head.column (OCC_FLAG ||| d))
      s.snake_head.row s.snake_head.column = OCC_FLAG ||| d :=
    get_set_same _ _ _ _ hheadin.2.1 hheadin.2.2.2 hv8
  have hnhB3 : get_cell
      (set_cell (set_cell
          (set_cell s.board s.snake_head.row s.snake_head.column (OCC_FLAG ||| d))
          s.snake_tail.row s.snake_tail.column CELL_EMPTY)
        (get_next_cell s.snake_head d).2.row (get_next_cell s.snake_head d).2.column
        (OCC_FLAG ||| d))
      (get_next_cell s.snake_head d).2.row (get_next_cell s.snake_head d).2.column =
      OCC_FLAG ||| d :=
    get_set_same _ _ _ _ hnrH hncW hv8
  rcases hpath.cases_shape with ⟨hth, hps⟩ | ⟨hth, qs, hps, hrec⟩
  · -- length-1 snake: tail = head
    subst hps
    have hnhtl : (get_next_cell s.snake_head d).2 ≠ s.snake_tail := by
      rw [hth]
      exact hnhne
    have htd : get_cell
        (set_cell s.board s.snake_head.row s.snake_head.column (OCC_FLAG ||| d))
        s.snake_tail.row s.snake_tail.column &&& 3 = d := by
      rw [hth, hb1head]
      exact occ_or_and_three d hd
    have hnt : (get_next_cell s.snake_tail
        (get_cell (set_cell s.board s.snake_head.row s.snake_head.column (OCC_FLAG ||| d))
          s.snake_tail.row s.snake_tail.column &&& 3)).2 =
        (get_next_cell s.snake_head d).2 := by
      rw [htd, hth]
    have hpost : PathTo
        (set_cell (set_cell
            (set_cell s.board s.snake_head.row s.snake_head.column (OCC_FLAG ||| d))
            s.snake_tail.row s.snake_tail.column CELL_EMPTY)
          (get_next_cell s.snake_head d).2.row (get_next_cell s.snake_head d).2.column
          (OCC_FLAG ||| d))
        (get_next_cell s.snake_head d).2
        (get_next_cell s.snake_tail
          (get_cell (set_cell s.board s.snake_head.row s.snake_head.column (OCC_FLAG ||| d))
            s.snake_tail.row s.snake_tail.column &&& 3)).2
        [(get_next_cell s.snake_head d).2] := by
      rw [hnt]
      exact PathTo.last
    refine ⟨rfl, rfl, ?_, hnhB3, ⟨hpost, by simp, ?_, ?_⟩, by simp, ?_, ?_⟩
    · rw [if_neg hnhtl]
      rw [get_set_ne _ _ _ _ _ _ hv8 hnc0 hncW htailin.2.2.1 htailin.2.2.2
        (cell_ne_coords hnhtl)]
      exact get_set_same _ _ _ _ htailin.2.1 htailin.2.2.2 (by decide)
    · intro p hp
      simp only [List.drop_succ_cons, List.drop_nil, List.nil_append,
        List.mem_singleton] at hp
      subst hp
      exact hnhin
    · intro p hp
      simp only [List.drop_succ_cons, List.drop_nil, List.nil_append,
        List.mem_singleton] at hp
      subst hp
      show get_cell (set_cell (set_cell
          (set_cell s.board s.snake_head.row s.snake_head.column (OCC_FLAG ||| d))
          s.snake_tail.row s.snake_tail.column CELL_EMPTY)
        (get_next_cell s.snake_head d).2.row (get_next_cell s.snake_head d).2.column
        (OCC_FLAG ||| d))
        (get_next_cell s.snake_head d).2.row (get_next_cell s.snake_head d).2.column &&&
        OCC_FLAG ≠ 0
      rw [hnhB3]
      exact occ_or_and_occ d hd
    · exact hpath.followLen_eq _ (by simp)
    · exact hpost.followLen_eq _ (by simp)
  · -- length ≥ 2: ps = tail :: qs
    subst hps
    have hqsbounds : ∀ p ∈ qs, inBounds p :=
      fun p hp => hbounds p (List.mem_cons_of_mem _ hp)
    have hqsnodup : qs.Nodup := (List.nodup_cons.mp hnodup).2
    have htlnot : s.snake_tail ∉ qs := (List.nodup_cons.mp hnodup).1
    have hheadqs : s.snake_head ∈ qs := by
      rcases List.mem_cons.mp hpath.head_mem with h1 | h1
      · exact absurd h1.symm hth
      · exact h1
    have hnotin : ∀ p ∈ qs, p ≠ (get_next_cell s.snake_head d).2 := by
      intro p hp
      by_cases hnt : (get_next_cell s.snake_head d).2 = s.snake_tail
      · intro hpe
        rw [hpe, hnt] at hp
        exact htlnot hp
      · have hce : ¬ cells_eq (get_next_cell s.snake_head d).2 s.snake_tail = true := by
          intro hce
          exact hnt ((cells_eq_iff _ _).mp hce)
        have hocc0 : get_cell s.board (get_next_cell s.snake_head d).2.row
            (get_next_cell s.snake_head d).2.column &&& OCC_FLAG = 0 := by
          have h1 := (IS_OCCUPIED_false_iff _).mp (hlose5 hce)
          rw [hb1eq] at h1
          exact h1
        intro hpe
        apply hocc p (List.mem_cons_of_mem _ hp)
        rw [hpe]
        exact hocc0
    have htd : get_cell
        (set_cell s.board s.snake_head.row s.snake_head.column (OCC_FLAG ||| d))
        s.snake_tail.row s.snake_tail.column =
        get_cell s.board s.snake_tail.row s.snake_tail.column :=
      hframe1 s.snake_tail htailin hth
    have hframe3 : ∀ p ∈ qs, p ≠ s.snake_head →
        get_cell
          (set_cell (set_cell
              (set_cell s.board s.snake_head.row s.snake_head.column (OCC_FLAG ||| d))
              s.snake_tail.row s.snake_tail.column CELL_EMPTY)
            (get_next_cell s.snake_head d).2.row (get_next_cell s.snake_head d).2.column
            (OCC_FLAG ||| d))
          p.row p.column = get_cell s.board p.row p.column := by
      intro p hp hpne
      have hpin := hqsbounds p hp
      rw [get_set_ne _ _ _ _ _ _ hv8 hnc0 hncW hpin.2.2.1 hpin.2.2.2
        (cell_ne_coords (Ne.symm (hnotin p hp)))]
      rw [get_set_ne _ _ _ _ _ _ (by decide) htailin.2.2.1 htailin.2.2.2
        hpin.2.2.1 hpin.2.2.2
        (cell_ne_coords (fun he => htlnot (he ▸ hp)))]
      exact hframe1 p hpin hpne
    have hheadB3 : get_cell
        (set_cell (set_cell
            (set_cell s.board s.snake_head.row s.snake_head.column (OCC_FLAG ||| d))
            s.snake_tail.row s.snake_tail.column CELL_EMPTY)
          (get_next_cell s.snake_head d).2.row (get_next_cell s.snake_head d).2.column
          (OCC_FLAG ||| d))
        s.snake_head.row s.snake_head.column = OCC_FLAG ||| d := by
      rw [get_set_ne _ _ _ _ _ _ hv8 hnc0 hncW hheadin.2.2.1 hheadin.2.2.2
        (cell_ne_coords hnhne)]
      rw [get_set_ne _ _ _ _ _ _ (by decide) htailin.2.2.1 htailin.2.2.2
        hheadin.2.2.1 hheadin.2.2.2 (cell_ne_coords hth)]
      exact hb1head
    have hpost : PathTo
        (set_cell (set_cell
            (set_cell s.board s.snake_head.row s.snake_head.column (OCC_FLAG ||| d))
            s.snake_tail.row s.snake_tail.column CELL_EMPTY)
          (get_next_cell s.snake_head d).2.row (get_next_cell s.snake_head d).2.column
          (OCC_FLAG ||| d))
        (get_next_cell s.snake_head d).2
        ((get_next_cell s.snake_tail
          (get_cell s.board s.snake_tail.row s.snake_tail.column &&& 3)).2)
        (qs ++ [(get_next_cell s.snake_head d).2]) :=
      hrec.extend hnotin
        (fun p hp hpne => by rw [hframe3 p hp hpne])
        (by rw [hheadB3]; exact occ_or_and_three d hd)
        rfl
    refine ⟨rfl, rfl, ?_, hnhB3, ⟨?_, ?_, ?_, ?_⟩, by simp, ?_, ?_⟩
    · by_cases hnt : (get_next_cell s.snake_head d).2 = s.snake_tail
      · rw [if_pos hnt, ← hnt]
        exact get_set_same _ _ _ _ hnrH hncW hv8
      · rw [if_neg hnt]
        rw [get_set_ne _ _ _ _ _ _ hv8 hnc0 hncW htailin.2.2.1 htailin.2.2.2
          (cell_ne_coords hnt)]
        exact get_set_same _ _ _ _ htailin.2.1 htailin.2.2.2 (by decide)
    · show PathTo _ _ _ (qs ++ [(get_next_cell s.snake_head d).2])
      rw [htd]
      exact hpost
    · show (qs ++ [(get_next_cell s.snake_head d).2]).Nodup
      rw [List.nodup_append]
      exact ⟨hqsnodup, List.nodup_singleton _,
        fun a ha hb => (hnotin a ha) (List.mem_singleton.mp hb)⟩
    · intro p hp
      rcases List.mem_append.mp hp with h1 | h1
      · exact hqsbounds p h1
      · rw [List.mem_singleton] at h1
        subst h1
        exact hnhin
    · intro p hp
      rcases List.mem_append.mp hp with h1 | h1
      · by_cases hpe : p = s.snake_head
        · subst hpe
          rw [hheadB3]
          exact occ_or_and_occ d hd
        · rw [hframe3 p h1 hpe]
          exact hocc p (List.mem_cons_of_mem _ h1)
      · rw [List.mem_singleton] at h1
        subst h1
        rw [hnhB3]
        exact occ_or_and_occ d hd
    · exact hpath.followLen_eq _ (by omega)
    · show followLen _ _ (get_next_cell s.snake_tail
        (get_cell (set_cell s.board s.snake_head.row s.snake_head.column (OCC_FLAG ||| d))
          s.snake_tail.row s.snake_tail.column &&& 3)).2 _ = _
      rw [htd]
      have h8 := hpost.followLen_eq (s.snake_tail :: qs).length (by simp)
      rw [show (qs ++ [(get_next_cell s.snake_head d).2]).length =
        (s.snake_tail :: qs).length by simp] at h8
      exact h8

theorem occ_or_ne_zero (d : Nat) (hd : d < 4) : OCC_FLAG ||| d ≠ 0 := by
  rcases dir_cases d hd with h | h | h | h <;> subst h <;> decide

def c4s : GameState :=
  ⟨set_cell (set_cell zeroBoard 10 10 CELL_OCC_RIGHT) 10 11 CELL_OCC_LEFT,
    ⟨10, 11⟩, ⟨10, 10⟩, ⟨1, 1⟩⟩

def c4s' : GameState := ((move_snake [] SNAKE_LEFT c4s).getD (GAME_CONT, c4s)).2

theorem c4s_snake : IsSnake c4s [⟨10, 10⟩, ⟨10, 11⟩] := by
  refine ⟨?_, by decide, by decide, by decide⟩
  have h1 : (get_next_cell c4s.snake_tail
      (get_cell c4s.board c4s.snake_tail.row c4s.snake_tail.column &&& 3)).2 =
      (⟨10, 11⟩ : cell_t) := by decide
  refine PathTo.step _ _ (by decide) ?_
  rw [h1]
  exact PathTo.last

/-- C4 counterexample: a 2-cell snake whose head moves onto its own tail
cell (the exempted self-collision) continues without food, yet the old
tail cell does NOT end up `CELL_EMPTY` — it is the new head cell and ends
`Occupied(direction)`. -/
theorem move_snake_no_food_cex :
    move_snake [] SNAKE_LEFT c4s = some (GAME_CONT, c4s') ∧
    get_cell c4s.board (get_next_cell c4s.snake_head SNAKE_LEFT).2.row
      (get_next_cell c4s.snake_head SNAKE_LEFT).2.column ≠ CELL_HAS_FOOD ∧
    get_cell c4s'.board c4s.snake_tail.row c4s.snake_tail.column ≠ CELL_EMPTY :=
  ⟨rfl, by decide, by decide⟩

def c4w : GameState :=
  ⟨set_cell zeroBoard 24 24 CELL_OCC_LEFT, ⟨24, 24⟩, ⟨24, 24⟩, ⟨1, 1⟩⟩

def c4w' : GameState := ((move_snake [] SNAKE_RIGHT c4w).getD (GAME_CONT, c4w)).2

theorem c4w_snake : IsSnake c4w [⟨24, 24⟩] := by
  refine ⟨?_, by decide, by decide, by decide⟩
  exact PathTo.last

theorem move_snake_no_food_witness :
    followLen c4w'.board c4w'.snake_head c4w'.snake_tail 1 = some 1 :=
  (move_snake_no_food [] SNAKE_RIGHT c4w c4w' [⟨24, 24⟩] c4w_snake (by decide) rfl
    (by decide)).2.2.2.2.2.2.2

/-- C5: a non-losing canonical move onto the food cell grows the snake:
the tail position is unchanged, `gen_food` placed the new food on a cell
that was `CELL_EMPTY` beforehand, the head moves onto the stepped-to cell
which becomes `Occupied(d)`, and the traversal length from tail to head
increases by exactly one. -/
theorem move_snake_food (l : List (Nat × Nat)) (d : Nat) (s s' : GameState)
    (ps : List cell_t) (hsnake : IsSnake s ps) (hd : d < 4)
    (hmove : move_snake l d s = some (GAME_CONT, s'))
    (hfood : get_cell s.board (get_next_cell s.snake_head d).2.row
      (get_next_cell s.snake_head d).2.column = CELL_HAS_FOOD) :
    s'.snake_tail = s.snake_tail ∧
    s'.snake_head = (get_next_cell s.snake_head d).2 ∧
    get_cell s'.board s'.snake_head.row s'.snake_head.column = OCC_FLAG ||| d ∧
    get_cell s.board s'.food_loc.row s'.food_loc.column = CELL_EMPTY ∧
    get_cell s'.board s'.food_loc.row s'.food_loc.column = CELL_HAS_FOOD ∧
    IsSnake s' (ps ++ [(get_next_cell s.snake_head d).2]) ∧
    followLen s.board s.snake_head s.snake_tail ps.length = some ps.length ∧
    followLen s'.board s'.snake_head s'.snake_tail (ps.length + 1) =
      some (ps.length + 1) := by
  obtain ⟨hpath, hnodup, hbounds, hocc⟩ := hsnake
  have hheadin : inBounds s.snake_head := hbounds _ hpath.head_mem
  have hnhne : (get_next_cell s.snake_head d).2 ≠ s.snake_head :=
    get_next_cell_ne s.snake_head d hd
  have hv8 : OCC_FLAG ||| d < 8 := occ_or_lt_8 d hd
  rw [move_snake_eq l d s hd] at hmove
  split at hmove
  · rw [Option.some.injEq, Prod.mk.injEq] at hmove
    cases hmove.1
  rename_i hlose
  push_neg at hlose
  obtain ⟨hnr0, hnrH, hnc0, hncW, -⟩ := hlose
  have hnhin : inBounds (get_next_cell s.snake_head d).2 := ⟨hnr0, hnrH, hnc0, hncW⟩
  have hb1eq : get_cell
      (set_cell s.board s.snake_head.row s.snake_head.column (OCC_FLAG ||| d))
      (get_next_cell s.snake_head d).2.row (get_next_cell s.snake_head d).2.column =
      get_cell s.board (get_next_cell s.snake_head d).2.row
        (get_next_cell s.snake_head d).2.column :=
    get_set_ne _ _ _ _ _ _ hv8 hheadin.2.2.1 hheadin.2.2.2 hnc0 hncW
      (cell_ne_coords (Ne.symm hnhne))
  have hfood1 : get_cell
      (set_cell s.board s.snake_head.row s.snake_head.column (OCC_FLAG ||| d))
      (get_next_cell s.snake_head d).2.row (get_next_cell s.snake_head d).2.column =
      CELL_HAS_FOOD := by
    rw [hb1eq]
    exact hfood
  rw [if_neg (not_ne_iff.mpr hfood1)] at hmove
  cases hgen : gen_food l (GameState.mk
      (set_cell s.board s.snake_head.row s.snake_head.column (OCC_FLAG ||| d))
      (get_next_cell s.snake_head d).2 s.snake_tail s.food_loc) with
  | none => rw [hgen] at hmove; cases hmove
  | some s2 =>
    rw [hgen] at hmove
    rw [Option.some.injEq, Prod.mk.injEq] at hmove
    obtain ⟨-, hs⟩ := hmove
    subst hs
    obtain ⟨hfin, hfempty, hfboard, hfh, hft⟩ := gen_food_spec _ _ s2 hgen
    dsimp only at hfempty hfboard hfh hft ⊢
    -- the head-marked board agrees with the original off the head cell
    have hframe1 : ∀ p : cell_t, inBounds p → p ≠ s.snake_head →
        get_cell (set_cell s.board s.snake_head.row s.snake_head.column (OCC_FLAG ||| d))
          p.row p.column = get_cell s.board p.row p.column := by
      intro p hp hpne
      exact get_set_ne _ _ _ _ _ _ hv8 hheadin.2.2.1 hheadin.2.2.2
        hp.2.2.1 hp.2.2.2 (cell_ne_coords (Ne.symm hpne))
    have hb1head : get_cell
        (set_cell s.board s.snake_head.row s.snake_head.column (OCC_FLAG ||| d))
        s.snake_head.row s.snake_head.column = OCC_FLAG ||| d :=
      get_set_same _ _ _ _ hheadin.2.1 hheadin.2.2.2 hv8
    -- the new food cell is distinct from the stepped-to cell and from
    -- every snake cell
    have hfne_nh : s2.food_loc ≠ (get_next_cell s.snake_head d).2 := by
      intro he
      rw [he, hfood1] at hfempty
      exact absurd hfempty (by decide)
    have hfne_ps : ∀ p ∈ ps, s2.food_loc ≠ p := by
      intro p hp he
      by_cases hpe : p = s.snake_head
      · rw [he, hpe, hb1head] at hfempty
        exact occ_or_ne_zero d hd hfempty
      · rw [he, hframe1 p (hbounds p hp) hpe] at hfempty
        exact hocc p hp (by rw [hfempty]; decide)
    -- the stepped-to cell is not a snake cell (it holds food, not a body)
    have hnotin : ∀ p ∈ ps, p ≠ (get_next_cell s.snake_head d).2 := by
      intro p hp he
      apply hocc p hp
      rw [he, hfood]
      decide
    -- the final board agrees with the original on snake cells off the head
    have hframe3 : ∀ p ∈ ps, p ≠ s.snake_head →
        get_cell (set_cell s2.board (get_next_cell s.snake_head d).2.row
          (get_next_cell s.snake_head d).2.column (OCC_FLAG ||| d))
          p.row p.column = get_cell s.board p.row p.column := by
      intro p hp hpne
      have hpin := hbounds p hp
      rw [get_set_ne _ _ _ _ _ _ hv8 hnc0 hncW hpin.2.2.1 hpin.2.2.2
        (cell_ne_coords (Ne.symm (hnotin p hp)))]
      rw [hfboard]
      rw [get_set_ne _ _ _ _ _ _ (by decide) hfin.2.2.1 hfin.2.2.2
        hpin.2.2.1 hpin.2.2.2 (cell_ne_coords (hfne_ps p hp))]
      exact hframe1 p hpin hpne
    have hheadB : get_cell (set_cell s2.board (get_next_cell s.snake_head d).2.row
        (get_next_cell s.snake_head d).2.column (OCC_FLAG ||| d))
        s.snake_head.row s.snake_head.column = OCC_FLAG ||| d := by
      rw [get_set_ne _ _ _ _ _ _ hv8 hnc0 hncW hheadin.2.2.1 hheadin.2.2.2
        (cell_ne_coords hnhne)]
      rw [hfboard]
      rw [get_set_ne _ _ _ _ _ _ (by decide) hfin.2.2.1 hfin.2.2.2
        hheadin.2.2.1 hheadin.2.2.2 (cell_ne_coords (hfne_ps _ hpath.head_mem))]
      exact hb1head
    have hnhB : get_cell (set_cell s2.board (get_next_cell s.snake_head d).2.row
        (get_next_cell s.snake_head d).2.column (OCC_FLAG ||| d))
        (get_next_cell s.snake_head d).2.row (get_next_cell s.snake_head d).2.column =
        OCC_FLAG ||| d :=
      get_set_same _ _ _ _ hnrH hncW hv8
    have hpost : PathTo (set_cell s2.board (get_next_cell s.snake_head d).2.row
        (get_next_cell s.snake_head d).2.column (OCC_FLAG ||| d))
        (get_next_cell s.snake_head d).2 s.snake_tail
        (ps ++ [(get_next_cell s.snake_head d).2]) :=
      hpath.extend hnotin
        (fun p hp hpne => by rw [hframe3 p hp hpne])
        (by rw [hheadB]; exact occ_or_and_three d hd)
        rfl
    refine ⟨hft, hfh ▸ rfl, ?_, ?_, ?_, ⟨?_, ?_, ?_, ?_⟩, ?_, ?_⟩
    · rw [hfh]
      exact hnhB
    · -- the food cell was empty in the original board
      rw [← hframe1 s2.food_loc hfin (hfne_ps _ hpath.head_mem ∘ Eq.symm ∘ Eq.symm)]
      exact hfempty
    · -- and holds food afterwards
      rw [get_set_ne _ _ _ _ _ _ hv8 hnc0 hncW hfin.2.2.1 hfin.2.2.2
        (cell_ne_coords (Ne.symm hfne_nh))]
      rw [hfboard]
      exact get_set_same _ _ _ _ hfin.2.1 hfin.2.2.2 (by decide)
    · show PathTo (set_cell s2.board (get_next_cell s.snake_head d).2.row
          (get_next_cell s.snake_head d).2.column (OCC_FLAG ||| d))
        s2.snake_head s2.snake_tail (ps ++ [(get_next_cell s.snake_head d).2])
      rw [hfh, hft]
      exact hpost
    · rw [List.nodup_append]
      exact ⟨hnodup, List.nodup_singleton _,
        fun a ha hb => (hnotin a ha) (List.mem_singleton.mp hb)⟩
    · intro p hp
      rcases List.mem_append.mp hp with h1 | h1
      · exact hbounds p h1
      · rw [List.mem_singleton] at h1
        subst h1
        exact hnhin
    · intro p hp
      rcases List.mem_append.mp hp with h1 | h1
      · by_cases hpe : p = s.snake_head
        · subst hpe
          rw [hheadB]
          exact occ_or_and_occ d hd
        · rw [hframe3 p h1 hpe]
          exact hocc p h1
      · rw [List.mem_singleton] at h1
        subst h1
        rw [hnhB]
        exact occ_or_and_occ d hd
    · exact hpath.followLen_eq _ (by omega)
    · rw [hft, hfh]
      have h8 := hpost.followLen_eq (ps.length + 1) (by simp)
      rw [List.length_append, List.length_singleton] at h8
      exact h8

def c5w : GameState :=
  ⟨set_cell (set_cell zeroBoard 24 24 CELL_OCC_LEFT) 24 25 CELL_HAS_FOOD,
    ⟨24, 24⟩, ⟨24, 24⟩, ⟨24, 25⟩⟩

def c5w' : GameState := ((move_snake [(3, 4)] SNAKE_RIGHT c5w).getD (GAME_CONT, c5w)).2

theorem c5w_snake : IsSnake c5w [⟨24, 24⟩] :=
  ⟨PathTo.last, by decide, by decide, by decide⟩

theorem move_snake_food_witness :
    followLen c5w'.board c5w'.snake_head c5w'.snake_tail 2 = some 2 :=
  (move_snake_food [(3, 4)] SNAKE_RIGHT c5w c5w' [⟨24, 24⟩] c5w_snake (by decide) rfl
    (by decide)).2.2.2.2.2.2.2
